import Mathlib

/-!
# Verification development for the Notepad++ updater (`src/npp_update.py`)

Shallow embedding of the updater script.  External collaborators (Windows
registry, HTTP feed, download transport, installer process) are modelled as
fields of a `World` record; every embedded function threads the world and
records its observable effects (network requests, installer invocations) in
an event trace.  Python exceptions that the script does not catch are
modelled with `Except`; exceptions it catches are folded into the `Option`
results exactly where the try/except blocks of the source sit.
-/

namespace NppUpdate

/- ### Python string primitives used by the script -/

/-- Prefix test on character lists (`list` view of Python `str.startswith`). -/
def startsWithAux : List Char → List Char → Bool
  | _, [] => true
  | [], _ :: _ => false
  | c :: cs, p :: ps => c == p && startsWithAux cs ps

/-- Substring search over character lists: does `pat` occur inside `l`? -/
def containsAux : List Char → List Char → Bool
  | [], pat => pat.isEmpty
  | c :: cs, pat => startsWithAux (c :: cs) pat || containsAux cs pat

/-- Python's `sub in s` substring containment. -/
def pyIn (sub s : String) : Bool :=
  containsAux s.data sub.data

/-- Python's `s.endswith(suffix)`. -/
def endswith (s suffix : String) : Bool :=
  startsWithAux s.data.reverse suffix.data.reverse

/-- Python's `s.lstrip('v')`: drop every leading `'v'`. -/
def lstripV (s : String) : String :=
  String.mk (s.data.dropWhile (fun c => c == 'v'))

/-- Split a character list on `'.'` (Python `s.split('.')`). -/
def splitOnDot : List Char → List (List Char)
  | [] => [[]]
  | c :: cs =>
    let r := splitOnDot cs
    if c == '.' then [] :: r
    else
      match r with
      | [] => [[c]]
      | g :: gs => (c :: g) :: gs

/-- Numeric value of one dotted component; `none` unless it is a nonempty
digit string. -/
def compToNat (l : List Char) : Option Nat :=
  if l.isEmpty then none
  else if l.all Char.isDigit then
    some (l.foldl (fun n c => n * 10 + (c.toNat - 48)) 0)
  else none

/-- Modelled fragment of the third-party `packaging.version.parse` used by
`compare_version`: a dotted numeric release string parses to its list of
numeric components; any other string raises `InvalidVersion` (modelled as
`none`, turned into the `invalidVersion` exception by `compare_version`). -/
def parseVersion (s : String) : Option (List Nat) :=
  (splitOnDot s.data).mapM compToNat

/- ### `packaging` release-tuple comparison -/

/-- Python tuple comparison on numeric lists: lexicographic, a strict prefix
comparing less than the longer tuple. -/
def tupleCmp : List Nat → List Nat → Ordering
  | [], [] => Ordering.eq
  | [], _ :: _ => Ordering.lt
  | _ :: _, [] => Ordering.gt
  | a :: as, b :: bs =>
    match compare a b with
    | Ordering.eq => tupleCmp as bs
    | o => o

/-- The packaging release comparison key drops trailing zero components
before tuple comparison. -/
def dropTrailingZeros (l : List Nat) : List Nat :=
  (l.reverse.dropWhile (fun x => x == 0)).reverse

/-- Map an `Ordering` to the `-1 / 0 / 1` integers returned by
`compare_version`. -/
def ordToInt : Ordering → Int
  | Ordering.lt => -1
  | Ordering.gt => 1
  | Ordering.eq => 0

/-- Python exceptions that escape the script's own `try` blocks. -/
inductive Exn
  | keyError
  | invalidVersion
deriving DecidableEq

/-- Embedding of `compare_version(current_version, latest_version)`:
parse both strings with `packaging` (raising `InvalidVersion` on failure,
which the function does not catch) and return `-1/1/0` for less / greater /
equal. -/
def compare_version (current_version latest_version : String) : Except Exn Int :=
  match parseVersion current_version, parseVersion latest_version with
  | some v1, some v2 =>
      Except.ok (ordToInt (tupleCmp (dropTrailingZeros v1) (dropTrailingZeros v2)))
  | _, _ => Except.error Exn.invalidVersion

/- ### Spec-side comparison (for claim C3)

The spec describes version comparison as component-wise numeric comparison
after zero-padding the shorter sequence to the length of the longer one.  `padCmp`
is that description verbatim; `cmpZ` is the recursive bridge used to prove it
equal to the `dropTrailingZeros`/`tupleCmp` combination of the source. -/

/-- Comparison of `[]` against a list whose missing components count as
zero (helper for `cmpZ`). -/
def cmpZnil : List Nat → Ordering
  | [] => Ordering.eq
  | b :: bs =>
    match compare 0 b with
    | Ordering.eq => cmpZnil bs
    | o => o

/-- Comparison treating components missing on either side as zero. -/
def cmpZ : List Nat → List Nat → Ordering
  | [], b => cmpZnil b
  | a :: as, [] =>
    match compare a 0 with
    | Ordering.eq => cmpZ as []
    | o => o
  | a :: as, b :: bs =>
    match compare a b with
    | Ordering.eq => cmpZ as bs
    | o => o

/-- The spec's words: zero-pad the shorter sequence to the longer one's
length, then compare component-wise (left to right). -/
def padCmp (a b : List Nat) : Ordering :=
  let n := max a.length b.length
  tupleCmp (a ++ List.replicate (n - a.length) 0) (b ++ List.replicate (n - b.length) 0)

/- ### External collaborators and the effect-traced world -/

/-- One registry key: the two string values the script queries.  A missing
value makes `winreg.QueryValueEx` raise (caught as `WindowsError` /
`OSError` by the script). -/
structure RegKey where
  displayName : Option String
  displayVersion : Option String
deriving DecidableEq

/-- One element of the feed's `assets` array (spec: `AssetDescriptor`). -/
structure Asset where
  name : String
  browser_download_url : String
deriving DecidableEq

/-- Outcome of one `requests.get` against the releases URL:
transport failure (`RequestException`), unparsable body (`res.json()`
raising), or a JSON object whose `tag_name` / `assets` fields may each be
absent (access then raises `KeyError`). -/
inductive FeedResult
  | networkError
  | malformed
  | ok (tag_name : Option String) (assets : Option (List Asset))
deriving DecidableEq

/-- Outcome of the streaming download of one asset URL. -/
inductive DlResult
  | networkError
  | ioError
  | ok
deriving DecidableEq

/-- Outcome of `subprocess.run([path, "/S"], check=True)`:
normal exit, `CalledProcessError`, or `OSError` at launch. -/
inductive InstResult
  | success
  | calledProcessError
  | osError
deriving DecidableEq

/-- Observable effects of one run. -/
inductive Event
  | feedRequest
  | downloadRequest (url : String)
  | installRun (path : String)
deriving DecidableEq

/-- The world threaded through a run: the external collaborators
(registry contents, the sequence of feed responses, download and installer
behaviour) plus mutable state (how many feed requests happened, which files
exist, the event trace, most recent first). -/
structure World where
  registry : String → Option RegKey
  feedResp : Nat → FeedResult
  download : String → DlResult
  install : String → InstResult
  feedCount : Nat
  files : List String
  events : List Event

/- ### The embedded script -/

/-- First registry path probed (the WOW6432Node one, for 64-bit systems). -/
def reg_path_wow : String :=
  "SOFTWARE\\WOW6432Node\\Microsoft\\Windows\\CurrentVersion\\Uninstall\\Notepad++"

/-- Second registry path probed. -/
def reg_path_plain : String :=
  "SOFTWARE\\Microsoft\\Windows\\CurrentVersion\\Uninstall\\Notepad++"

/-- The two registry paths probed for Notepad++, in source order. -/
def npp_reg_paths : List String := [reg_path_wow, reg_path_plain]

/-- Loop body of `get_arch`: try each path; a failing `OpenKey` or a missing
`DisplayName` value raises `WindowsError`, which the loop catches and
continues past. -/
def get_arch_go (reg : String → Option RegKey) : List String → Option String × String
  | [] => (none, "")
  | p :: rest =>
    match reg p with
    | none => get_arch_go reg rest
    | some k =>
      match k.displayName with
      | none => get_arch_go reg rest
      | some display_name =>
        (some (if pyIn "x64" display_name then "x64" else "x86"), p)

/-- Embedding of `get_arch()`: architecture (from the `"x64"` substring
marker in the display name) and the registry path that yielded it. -/
def get_arch (reg : String → Option RegKey) : Option String × String :=
  get_arch_go reg npp_reg_paths

/-- Embedding of `get_current_version()`: take the path chosen by
`get_arch`, reopen it and read `DisplayVersion`; a raise there is caught and
gives `(None, None)` — the other registry path is not retried. -/
def get_current_version (reg : String → Option RegKey) : Option String × Option String :=
  match get_arch reg with
  | (none, _) => (none, none)
  | (some arch, reg_path) =>
    match reg reg_path with
    | none => (none, none)
    | some k =>
      match k.displayVersion with
      | none => (none, none)
      | some version => (some version, some arch)

/-- Embedding of `get_latest_version()`: one feed request; transport and
JSON-decode failures are caught (`None`); a response without `tag_name`
raises an uncaught `KeyError`; otherwise the tag with every leading `'v'`
stripped. -/
def get_latest_version (w : World) : World × Except Exn (Option String) :=
  let r := w.feedResp w.feedCount
  let w1 : World :=
    { w with feedCount := w.feedCount + 1, events := Event.feedRequest :: w.events }
  match r with
  | FeedResult.networkError => (w1, Except.ok none)
  | FeedResult.malformed => (w1, Except.ok none)
  | FeedResult.ok none _ => (w1, Except.error Exn.keyError)
  | FeedResult.ok (some t) _ => (w1, Except.ok (some (lstripV t)))

/-- The asset-matching condition inside `get_installer`'s loop. -/
def installerMatch (arch : String) (a : Asset) : Bool :=
  (endswith a.name (arch ++ ".exe") && arch == "x64")
  || (endswith a.name "Installer.exe" && arch == "x86")

/-- The selection loop of `get_installer`: first matching asset wins; the
loop yields its `browser_download_url`. -/
def selectUrl (assets : List Asset) (arch : String) : Option String :=
  (assets.find? (installerMatch arch)).map Asset.browser_download_url

/-- Embedding of `get_installer(arch)`: a second feed request for the
asset list (a missing `assets` field raises an uncaught `KeyError`), the
selection loop, the Python falsy test on the chosen URL, then the streaming
download to `npp_installer_{arch}.exe`; transport and I/O failures are
caught (`None`). -/
def get_installer (w : World) (arch : String) : World × Except Exn (Option String) :=
  let r := w.feedResp w.feedCount
  let w1 : World :=
    { w with feedCount := w.feedCount + 1, events := Event.feedRequest :: w.events }
  match r with
  | FeedResult.networkError => (w1, Except.ok none)
  | FeedResult.malformed => (w1, Except.ok none)
  | FeedResult.ok _ none => (w1, Except.error Exn.keyError)
  | FeedResult.ok _ (some assets) =>
    match selectUrl assets arch with
    | none => (w1, Except.ok none)
    | some download_url =>
      if download_url = "" then (w1, Except.ok none)
      else
        let w2 : World :=
          { w1 with events := Event.downloadRequest download_url :: w1.events }
        match w2.download download_url with
        | DlResult.networkError => (w2, Except.ok none)
        | DlResult.ioError => (w2, Except.ok none)
        | DlResult.ok =>
          let filepath := "npp_installer_" ++ arch ++ ".exe"
          ({ w2 with files := filepath :: w2.files }, Except.ok (some filepath))

/-- Embedding of the guarded delete `if os.path.exists(path): os.remove(path)`. -/
def removeIfExists (files : List String) (p : String) : List String :=
  if p ∈ files then files.filter (fun q => q ≠ p) else files

/-- Embedding of `run_installer(path)`: invoke the artifact silently;
on normal exit, `CalledProcessError` or `OSError` alike, delete the file if
it exists; report success as `true`. -/
def run_installer (w : World) (path : String) : World × Bool :=
  let w1 : World := { w with events := Event.installRun path :: w.events }
  match w1.install path with
  | InstResult.success =>
    ({ w1 with files := removeIfExists w1.files path }, true)
  | InstResult.calledProcessError =>
    ({ w1 with files := removeIfExists w1.files path }, false)
  | InstResult.osError =>
    ({ w1 with files := removeIfExists w1.files path }, false)

/-- Embedding of `main()`.  The Python falsy tests (`if not current_version
or not arch`, `if not latest_version`, `if not installer`) treat the empty
string like `None`.  Uncaught exceptions surface as `Except.error`. -/
def main (w : World) : World × Except Exn Int :=
  match get_current_version w.registry with
  | (some current_version, some arch) =>
    if current_version = "" ∨ arch = "" then (w, Except.ok 2)
    else
      let r1 := get_latest_version w
      match r1.2 with
      | Except.error e => (r1.1, Except.error e)
      | Except.ok none => (r1.1, Except.ok 3)
      | Except.ok (some latest_version) =>
        if latest_version = "" then (r1.1, Except.ok 3)
        else
          match compare_version current_version latest_version with
          | Except.error e => (r1.1, Except.error e)
          | Except.ok result =>
            if result < 0 then
              let r2 := get_installer r1.1 arch
              match r2.2 with
              | Except.error e => (r2.1, Except.error e)
              | Except.ok none => (r2.1, Except.ok 4)
              | Except.ok (some installer) =>
                if installer = "" then (r2.1, Except.ok 4)
                else
                  let r3 := run_installer r2.1 installer
                  (r3.1, Except.ok (if r3.2 then 1 else 5))
            else (r1.1, Except.ok 0)
  | (_, _) => (w, Except.ok 2)

/-- No-trailing-zero predicate: what `dropTrailingZeros` establishes. -/
def NoTrail (l : List Nat) : Prop := ∀ z, l.getLast? = some z → z ≠ 0


/- ### Stage-output predicates used by the claim statements -/

/-- The display name a registry path yields, if any. -/
def nameAt (reg : String → Option RegKey) (p : String) : Option String :=
  (reg p).bind RegKey.displayName

/-- The display version a registry path yields, if any. -/
def versionAt (reg : String → Option RegKey) (p : String) : Option String :=
  (reg p).bind RegKey.displayVersion

/-- The probe produced a truthy version and architecture (Python's test
`not current_version or not arch` fails). -/
def probeYields (w : World) (cv arch : String) : Prop :=
  get_current_version w.registry = (some cv, some arch) ∧ cv ≠ "" ∧ arch ≠ ""

/-- The fetch stage `get_latest_version` produced a truthy version string. -/
def latestYields (w : World) (lv : String) : Prop :=
  (get_latest_version w).2 = Except.ok (some lv) ∧ lv ≠ ""

/-- The fetch stage `get_latest_version` returned a falsy result (`None` or `""`). -/
def latestFailed (w : World) : Prop :=
  (get_latest_version w).2 = Except.ok none ∨ (get_latest_version w).2 = Except.ok (some "")

/-- The download stage `get_installer` (run on the post-fetch world) returned a falsy result. -/
def installerFailed (w : World) (arch : String) : Prop :=
  (get_installer (get_latest_version w).1 arch).2 = Except.ok none
  ∨ (get_installer (get_latest_version w).1 arch).2 = Except.ok (some "")

/-- The download stage `get_installer` (run on the post-fetch world) produced a truthy path. -/
def installerYields (w : World) (arch p : String) : Prop :=
  (get_installer (get_latest_version w).1 arch).2 = Except.ok (some p) ∧ p ≠ ""

/-- Is an event the feed request? -/
def isFeedReq : Event → Bool
  | Event.feedRequest => true
  | _ => false

/-- Number of feed requests in a trace. -/
def countFeed (es : List Event) : Nat := (es.filter isFeedReq).length


/- ### Concrete worlds used as witnesses and counterexamples -/

/-- Notepad++ absent from the registry; feed unreachable. -/
def wEmpty : World :=
  { registry := fun _ => none, feedResp := fun _ => FeedResult.networkError,
    download := fun _ => DlResult.ok, install := fun _ => InstResult.success,
    feedCount := 0, files := [], events := [] }

/-- Installed 8.6, latest 8.6: already up to date. -/
def wSame : World :=
  { registry := fun _ =>
      some { displayName := some "Notepad++", displayVersion := some "8.6" },
    feedResp := fun _ => FeedResult.ok (some "v8.6") (some []),
    download := fun _ => DlResult.ok, install := fun _ => InstResult.success,
    feedCount := 0, files := [], events := [] }

/-- The assets published with a release: the x86 installer first, the x64
installer second. -/
def fullAssets : List Asset :=
  [{ name := "npp.8.6.3.Installer.exe", browser_download_url := "u86" },
   { name := "npp.8.6.3.x64.exe", browser_download_url := "u64" }]

/-- Installed 4.5.1 (x64), latest 8.6.3, matching asset, download and
install succeed: the full update pipeline. -/
def wFull : World :=
  { registry := fun _ =>
      some { displayName := some "Notepad++ (x64)", displayVersion := some "4.5.1" },
    feedResp := fun _ => FeedResult.ok (some "v8.6.3") (some fullAssets),
    download := fun _ => DlResult.ok, install := fun _ => InstResult.success,
    feedCount := 0, files := [], events := [] }

/-- Update available but no asset matches the x64 suffix rule. -/
def wNoMatch : World :=
  { registry := fun _ =>
      some { displayName := some "Notepad++ (x64)", displayVersion := some "4.5.1" },
    feedResp := fun _ =>
      FeedResult.ok (some "v8.6.3")
        (some [{ name := "unrelated-file.zip", browser_download_url := "u" }]),
    download := fun _ => DlResult.ok, install := fun _ => InstResult.success,
    feedCount := 0, files := [], events := [] }

/-- Installed fine, but the JSON object from the feed has no `tag_name` and no
`assets` field. -/
def wKeyErr : World :=
  { registry := fun _ =>
      some { displayName := some "Notepad++ (x64)", displayVersion := some "8.6" },
    feedResp := fun _ => FeedResult.ok none none,
    download := fun _ => DlResult.ok, install := fun _ => InstResult.success,
    feedCount := 0, files := [], events := [] }

/-- Registry where the first probed path has a display name but no display
version, while the second path has both. -/
def c8reg : String → Option RegKey := fun p =>
  if p = reg_path_wow then some { displayName := some "Notepad++", displayVersion := none }
  else if p = reg_path_plain then
    some { displayName := some "Notepad++ (x64)", displayVersion := some "8.6" }
  else none


/- ### Lemmas about the comparison machinery -/

theorem natCompare_swap (a b : Nat) : compare b a = (compare a b).swap := by
  rcases Nat.lt_trichotomy a b with h | h | h
  · rw [Nat.compare_eq_lt.2 h, Nat.compare_eq_gt.2 h]; rfl
  · subst h; rw [Nat.compare_eq_eq.2 rfl]; rfl
  · rw [Nat.compare_eq_gt.2 h, Nat.compare_eq_lt.2 h]; rfl

theorem tupleCmp_refl (a : List Nat) : tupleCmp a a = Ordering.eq := by
  induction a with
  | nil => rfl
  | cons x as ih => simp [tupleCmp, Nat.compare_eq_eq.2 rfl, ih]

theorem tupleCmp_swap (a : List Nat) : ∀ b, tupleCmp b a = (tupleCmp a b).swap := by
  induction a with
  | nil => intro b; cases b <;> rfl
  | cons x as ih =>
    intro b
    cases b with
    | nil => rfl
    | cons y bs =>
      simp only [tupleCmp]
      rw [natCompare_swap x y]
      cases h : compare x y <;> simp [Ordering.swap, ih bs]

theorem tupleCmp_lt_trans :
    ∀ {a b c : List Nat}, tupleCmp a b = Ordering.lt → tupleCmp b c = Ordering.lt →
      tupleCmp a c = Ordering.lt := by
  intro a
  induction a with
  | nil =>
    intro b c hab hbc
    cases c with
    | cons z cs => rfl
    | nil =>
      cases b with
      | nil => simp [tupleCmp] at hab
      | cons y bs => simp [tupleCmp] at hbc
  | cons x as ih =>
    intro b c hab hbc
    cases b with
    | nil => simp [tupleCmp] at hab
    | cons y bs =>
      cases c with
      | nil => simp [tupleCmp] at hbc
      | cons z cs =>
        simp only [tupleCmp] at hab hbc ⊢
        cases hxy : compare x y with
        | gt => rw [hxy] at hab; exact absurd hab (by simp)
        | lt =>
          rw [hxy] at hab
          have hxyl : x < y := Nat.compare_eq_lt.1 hxy
          cases hyz : compare y z with
          | gt => rw [hyz] at hbc; exact absurd hbc (by simp)
          | lt =>
            have : x < z := Nat.lt_trans hxyl (Nat.compare_eq_lt.1 hyz)
            rw [Nat.compare_eq_lt.2 this]
          | eq =>
            have : x < z := (Nat.compare_eq_eq.1 hyz) ▸ hxyl
            rw [Nat.compare_eq_lt.2 this]
        | eq =>
          rw [hxy] at hab
          have hxye : x = y := Nat.compare_eq_eq.1 hxy
          cases hyz : compare y z with
          | gt => rw [hyz] at hbc; exact absurd hbc (by simp)
          | lt =>
            have : x < z := hxye ▸ Nat.compare_eq_lt.1 hyz
            rw [Nat.compare_eq_lt.2 this]
          | eq =>
            rw [hyz] at hbc
            have : x = z := hxye.trans (Nat.compare_eq_eq.1 hyz)
            rw [Nat.compare_eq_eq.2 this]
            exact ih hab hbc

theorem cmpZnil_eq (b : List Nat) : cmpZnil b = cmpZ [] b := rfl

theorem cmpZ_nil_swap : ∀ b : List Nat, cmpZ b [] = (cmpZ [] b).swap := by
  intro b
  induction b with
  | nil => rfl
  | cons y bs ih =>
    simp only [cmpZ, cmpZnil]
    rw [natCompare_swap 0 y]
    cases h : compare 0 y <;> simp [Ordering.swap, cmpZnil_eq, ih]

theorem cmpZ_swap (a : List Nat) : ∀ b, cmpZ b a = (cmpZ a b).swap := by
  induction a with
  | nil => exact cmpZ_nil_swap
  | cons x as ih =>
    intro b
    cases b with
    | nil => rw [cmpZ_nil_swap (x :: as), Ordering.swap_swap]
    | cons y bs =>
      simp only [cmpZ]
      rw [natCompare_swap x y]
      cases h : compare x y <;> simp [Ordering.swap, ih bs]

theorem tupleCmp_replicate_nil : ∀ b : List Nat,
    tupleCmp (List.replicate b.length 0) b = cmpZ [] b := by
  intro b
  induction b with
  | nil => rfl
  | cons y bs ih =>
    simp only [List.length_cons, List.replicate_succ, tupleCmp, cmpZ, cmpZnil]
    cases h : compare 0 y <;> simp [cmpZnil_eq, ih]

theorem tupleCmp_nil_replicate : ∀ a : List Nat,
    tupleCmp a (List.replicate a.length 0) = cmpZ a [] := by
  intro a
  induction a with
  | nil => rfl
  | cons x as ih =>
    simp only [List.length_cons, List.replicate_succ, tupleCmp, cmpZ]
    cases h : compare x 0 <;> simp [ih]

theorem padCmp_eq_cmpZ : ∀ a b : List Nat, padCmp a b = cmpZ a b := by
  intro a
  induction a with
  | nil =>
    intro b
    simpa [padCmp] using tupleCmp_replicate_nil b
  | cons x as ih =>
    intro b
    cases b with
    | nil => simpa [padCmp] using tupleCmp_nil_replicate (x :: as)
    | cons y bs =>
      have hm : max (as.length + 1) (bs.length + 1) = max as.length bs.length + 1 :=
        Nat.succ_max_succ _ _
      have hu := ih bs
      simp only [padCmp] at hu ⊢
      simp only [List.length_cons, hm, Nat.succ_sub_succ, List.cons_append,
        tupleCmp, cmpZ]
      cases h : compare x y <;> simp [hu]

theorem cmpZ_snoc_zero : ∀ (b a : List Nat), cmpZ a (b ++ [0]) = cmpZ a b := by
  intro b
  induction b with
  | nil =>
    intro a
    cases a with
    | nil => decide
    | cons x as =>
      simp only [List.nil_append, cmpZ]
  | cons y bs ih =>
    intro a
    cases a with
    | nil =>
      simp only [List.cons_append, cmpZ, cmpZnil]
      cases h : compare 0 y <;> simp [cmpZnil_eq, ih []]
    | cons x as =>
      simp only [List.cons_append, cmpZ]
      cases h : compare x y <;> simp [ih as]

theorem cmpZ_append_replicate_right :
    ∀ (k : Nat) (a b : List Nat), cmpZ a (b ++ List.replicate k 0) = cmpZ a b := by
  intro k
  induction k with
  | zero => intro a b; simp
  | succ n ih =>
    intro a b
    rw [List.replicate_succ' n 0, ← List.append_assoc, cmpZ_snoc_zero, ih]

theorem cmpZ_append_replicate_left
    (k : Nat) (a b : List Nat) : cmpZ (a ++ List.replicate k 0) b = cmpZ a b := by
  have h1 : cmpZ b (a ++ List.replicate k 0) = cmpZ b a :=
    cmpZ_append_replicate_right k b a
  have h2 := cmpZ_swap (a ++ List.replicate k 0) b
  have h3 := cmpZ_swap a b
  have h4 : (cmpZ (a ++ List.replicate k 0) b).swap = (cmpZ a b).swap := by
    rw [← h2, ← h3]; exact h1
  calc cmpZ (a ++ List.replicate k 0) b
      = (cmpZ (a ++ List.replicate k 0) b).swap.swap := Ordering.swap_swap.symm
    _ = (cmpZ a b).swap.swap := by rw [h4]
    _ = cmpZ a b := Ordering.swap_swap

theorem dtz_append_replicate (a : List Nat) :
    ∃ k, a = dropTrailingZeros a ++ List.replicate k 0 := by
  refine ⟨(a.reverse.takeWhile (fun x => x == 0)).length, ?_⟩
  have h := List.takeWhile_append_dropWhile (p := fun x => x == 0) (l := a.reverse)
  have hrev : (a.reverse.takeWhile (fun x => x == 0)).reverse
      = List.replicate (a.reverse.takeWhile (fun x => x == 0)).length 0 := by
    rw [List.eq_replicate_iff]
    refine ⟨by simp, fun b hb => ?_⟩
    rw [List.mem_reverse] at hb
    simpa using List.mem_takeWhile_imp hb
  conv_lhs => rw [← List.reverse_reverse a, ← h]
  rw [List.reverse_append, hrev, dropTrailingZeros]

theorem head?_dropWhile_false {p : Nat → Bool} :
    ∀ (l : List Nat) (x : Nat), (l.dropWhile p).head? = some x → p x = false := by
  intro l
  induction l with
  | nil => intro x h; simp [List.dropWhile] at h
  | cons c cs ih =>
    intro x h
    by_cases hc : p c
    · rw [List.dropWhile_cons, if_pos hc] at h
      exact ih x h
    · rw [List.dropWhile_cons, if_neg hc] at h
      simp only [List.head?_cons, Option.some.injEq] at h
      subst h
      exact Bool.eq_false_iff.2 hc

theorem noTrail_dtz (a : List Nat) : NoTrail (dropTrailingZeros a) := by
  intro z hz
  rw [dropTrailingZeros, List.getLast?_reverse] at hz
  have := head?_dropWhile_false (p := fun x => x == 0) a.reverse z hz
  simpa using this

theorem noTrail_tail {x : Nat} {l : List Nat} (h : NoTrail (x :: l)) : NoTrail l := by
  cases l with
  | nil => intro z hz; simp at hz
  | cons d ds =>
    intro z hz
    exact h z (by rw [List.getLast?_cons_cons]; exact hz)

theorem noTrail_exists_nonzero : ∀ l : List Nat, NoTrail l → l ≠ [] → ∃ z ∈ l, z ≠ 0
  | [], _, h => absurd rfl h
  | [c], hnt, _ => ⟨c, by simp, hnt c (by simp)⟩
  | c :: d :: ds, hnt, _ => by
    obtain ⟨z, hzm, hz0⟩ :=
      noTrail_exists_nonzero (d :: ds)
        (fun z hz => hnt z (by rw [List.getLast?_cons_cons]; exact hz)) (by simp)
    exact ⟨z, List.mem_cons_of_mem c hzm, hz0⟩

theorem cmpZ_nil_lt : ∀ l : List Nat, (∃ z ∈ l, z ≠ 0) → cmpZ [] l = Ordering.lt := by
  intro l
  induction l with
  | nil => rintro ⟨z, hz, _⟩; simp at hz
  | cons y bs ih =>
    rintro ⟨z, hz, hz0⟩
    simp only [cmpZ, cmpZnil]
    rcases List.mem_cons.1 hz with rfl | hzm
    · have hp : 0 < z := Nat.pos_of_ne_zero hz0
      rw [Nat.compare_eq_lt.2 hp]
    · by_cases hy : y = 0
      · subst hy
        rw [Nat.compare_eq_eq.2 rfl]
        exact ih ⟨z, hzm, hz0⟩
      · have hp : 0 < y := Nat.pos_of_ne_zero hy
        rw [Nat.compare_eq_lt.2 hp]

theorem cmpZ_eq_tupleCmp :
    ∀ (a b : List Nat), NoTrail a → NoTrail b → cmpZ a b = tupleCmp a b := by
  intro a
  induction a with
  | nil =>
    intro b _ hb
    cases b with
    | nil => rfl
    | cons y bs =>
      have hlt := cmpZ_nil_lt (y :: bs) (noTrail_exists_nonzero _ hb (by simp))
      simp [tupleCmp, hlt]
  | cons x as ih =>
    intro b ha hb
    cases b with
    | nil =>
      have hlt := cmpZ_nil_lt (x :: as) (noTrail_exists_nonzero _ ha (by simp))
      rw [cmpZ_nil_swap (x :: as), hlt]
      rfl
    | cons y bs =>
      have ha' : NoTrail as := noTrail_tail ha
      have hb' : NoTrail bs := noTrail_tail hb
      simp only [cmpZ, tupleCmp]
      cases h : compare x y <;> simp [ih bs ha' hb']

theorem dtz_tupleCmp_eq_cmpZ (a b : List Nat) :
    tupleCmp (dropTrailingZeros a) (dropTrailingZeros b) = cmpZ a b := by
  obtain ⟨j, hj⟩ := dtz_append_replicate a
  obtain ⟨k, hk⟩ := dtz_append_replicate b
  have h1 : cmpZ a b = cmpZ (dropTrailingZeros a) (dropTrailingZeros b) := by
    conv_lhs => rw [hj, hk]
    rw [cmpZ_append_replicate_right, cmpZ_append_replicate_left]
  rw [h1, cmpZ_eq_tupleCmp _ _ (noTrail_dtz a) (noTrail_dtz b)]

/- ### Stage-level lemmas -/

theorem get_latest_version_world (w : World) :
    (get_latest_version w).1 =
      { w with feedCount := w.feedCount + 1, events := Event.feedRequest :: w.events } := by
  unfold get_latest_version
  cases h : w.feedResp w.feedCount with
  | networkError => rfl
  | malformed => rfl
  | ok t a => cases t <;> rfl

theorem get_installer_feedCount (w : World) (arch : String) :
    (get_installer w arch).1.feedCount = w.feedCount + 1 := by
  cases hr : w.feedResp w.feedCount with
  | networkError => simp [get_installer, hr]
  | malformed => simp [get_installer, hr]
  | ok t a =>
    cases a with
    | none => simp [get_installer, hr]
    | some assets =>
      cases hsel : selectUrl assets arch with
      | none => simp [get_installer, hr, hsel]
      | some url =>
        by_cases hu : url = ""
        · simp [get_installer, hr, hsel, hu]
        · cases hdl : w.download url <;> simp [get_installer, hr, hsel, hu, hdl]

theorem get_installer_countFeed (w : World) (arch : String) :
    countFeed (get_installer w arch).1.events = countFeed w.events + 1 := by
  cases hr : w.feedResp w.feedCount with
  | networkError => simp [get_installer, hr, countFeed, isFeedReq]
  | malformed => simp [get_installer, hr, countFeed, isFeedReq]
  | ok t a =>
    cases a with
    | none => simp [get_installer, hr, countFeed, isFeedReq]
    | some assets =>
      cases hsel : selectUrl assets arch with
      | none => simp [get_installer, hr, hsel, countFeed, isFeedReq]
      | some url =>
        by_cases hu : url = ""
        · simp [get_installer, hr, hsel, hu, countFeed, isFeedReq]
        · cases hdl : w.download url <;>
            simp [get_installer, hr, hsel, hu, hdl, countFeed, isFeedReq]

theorem get_installer_registry (w : World) (arch : String) :
    (get_installer w arch).1.registry = w.registry := by
  cases hr : w.feedResp w.feedCount with
  | networkError => simp [get_installer, hr]
  | malformed => simp [get_installer, hr]
  | ok t a =>
    cases a with
    | none => simp [get_installer, hr]
    | some assets =>
      cases hsel : selectUrl assets arch with
      | none => simp [get_installer, hr, hsel]
      | some url =>
        by_cases hu : url = ""
        · simp [get_installer, hr, hsel, hu]
        · cases hdl : w.download url <;> simp [get_installer, hr, hsel, hu, hdl]

theorem get_installer_install (w : World) (arch : String) :
    (get_installer w arch).1.install = w.install := by
  cases hr : w.feedResp w.feedCount with
  | networkError => simp [get_installer, hr]
  | malformed => simp [get_installer, hr]
  | ok t a =>
    cases a with
    | none => simp [get_installer, hr]
    | some assets =>
      cases hsel : selectUrl assets arch with
      | none => simp [get_installer, hr, hsel]
      | some url =>
        by_cases hu : url = ""
        · simp [get_installer, hr, hsel, hu]
        · cases hdl : w.download url <;> simp [get_installer, hr, hsel, hu, hdl]

theorem get_installer_error (w : World) (arch : String) (e : Exn)
    (h : (get_installer w arch).2 = Except.error e) :
    ∃ t, w.feedResp w.feedCount = FeedResult.ok t none := by
  cases hr : w.feedResp w.feedCount with
  | networkError => simp [get_installer, hr] at h
  | malformed => simp [get_installer, hr] at h
  | ok t a =>
    cases a with
    | none => exact ⟨t, rfl⟩
    | some assets =>
      cases hsel : selectUrl assets arch with
      | none => simp [get_installer, hr, hsel] at h
      | some url =>
        by_cases hu : url = ""
        · simp [get_installer, hr, hsel, hu] at h
        · cases hdl : w.download url <;> simp [get_installer, hr, hsel, hu, hdl] at h

theorem get_latest_version_error (w : World) (e : Exn)
    (h : (get_latest_version w).2 = Except.error e) :
    ∃ a, w.feedResp w.feedCount = FeedResult.ok none a := by
  cases hr : w.feedResp w.feedCount with
  | networkError => simp [get_latest_version, hr] at h
  | malformed => simp [get_latest_version, hr] at h
  | ok t a =>
    cases t with
    | none => exact ⟨a, rfl⟩
    | some tag => simp [get_latest_version, hr] at h

theorem get_latest_version_ok_some (w : World) (lv : String)
    (h : (get_latest_version w).2 = Except.ok (some lv)) :
    ∃ t a, w.feedResp w.feedCount = FeedResult.ok (some t) a ∧ lv = lstripV t := by
  cases hr : w.feedResp w.feedCount with
  | networkError => simp [get_latest_version, hr] at h
  | malformed => simp [get_latest_version, hr] at h
  | ok t a =>
    cases t with
    | none => simp [get_latest_version, hr] at h
    | some tag =>
      simp only [get_latest_version, hr] at h
      refine ⟨tag, a, rfl, ?_⟩
      have h2 := Except.ok.inj h
      exact (Option.some.inj h2).symm

theorem compare_version_error (a b : String) (e : Exn)
    (h : compare_version a b = Except.error e) :
    parseVersion a = none ∨ parseVersion b = none := by
  cases ha : parseVersion a with
  | none => exact Or.inl rfl
  | some va =>
    cases hb : parseVersion b with
    | none => exact Or.inr rfl
    | some vb => simp [compare_version, ha, hb] at h

theorem run_installer_world (w : World) (p : String) :
    (run_installer w p).1 =
      { w with events := Event.installRun p :: w.events,
               files := removeIfExists (w.files) p } := by
  cases h : w.install p <;> simp [run_installer, h]

theorem run_installer_result (w : World) (p : String) :
    (run_installer w p).2 = (w.install p == InstResult.success) := by
  cases h : w.install p <;> simp [run_installer, h]

/-- Master case analysis of one `main` run: every run falls into exactly one
of the documented terminal outcomes, or surfaces an uncaught exception whose
origin is identified. -/
theorem main_cases (w : World) :
    ((main w).2 = Except.ok 2 ∧ ∀ cv arch, ¬ probeYields w cv arch)
  ∨ (∃ cv arch, probeYields w cv arch ∧
      ((∃ e, (main w).2 = Except.error e ∧ (get_latest_version w).2 = Except.error e)
     ∨ ((main w).2 = Except.ok 3 ∧ latestFailed w)
     ∨ (∃ lv, latestYields w lv ∧
         ((∃ e, (main w).2 = Except.error e ∧ compare_version cv lv = Except.error e)
        ∨ ((main w).2 = Except.ok 0 ∧ ∃ r, compare_version cv lv = Except.ok r ∧ 0 ≤ r)
        ∨ (∃ r, compare_version cv lv = Except.ok r ∧ r < 0 ∧
            ((∃ e, (main w).2 = Except.error e ∧
                (get_installer (get_latest_version w).1 arch).2 = Except.error e)
           ∨ ((main w).2 = Except.ok 4 ∧ installerFailed w arch)
           ∨ (∃ p, installerYields w arch p ∧
               (((main w).2 = Except.ok 1 ∧
                   (run_installer (get_installer (get_latest_version w).1 arch).1 p).2 = true)
              ∨ ((main w).2 = Except.ok 5 ∧
                   (run_installer (get_installer (get_latest_version w).1 arch).1 p).2 = false))))))))) := by
  cases hgcv : get_current_version w.registry with
  | mk cvo archo =>
  cases cvo with
  | none =>
    refine Or.inl ⟨by simp [main, hgcv], ?_⟩
    rintro cv arch ⟨h1, -, -⟩
    rw [hgcv] at h1
    simp at h1
  | some cv =>
  cases archo with
  | none =>
    refine Or.inl ⟨by simp [main, hgcv], ?_⟩
    rintro cv' arch ⟨h1, -, -⟩
    rw [hgcv] at h1
    simp at h1
  | some arch =>
  by_cases hcve : cv = "" ∨ arch = ""
  · refine Or.inl ⟨?_, ?_⟩
    · simp only [main, hgcv]
      rw [if_pos hcve]
    · rintro cv' arch' ⟨h1, h2, h3⟩
      rw [hgcv] at h1
      simp only [Prod.mk.injEq, Option.some.injEq] at h1
      obtain ⟨h1a, h1b⟩ := h1
      subst h1a; subst h1b
      rcases hcve with h | h
      · exact h2 h
      · exact h3 h
  · push_neg at hcve
    obtain ⟨hne1, hne2⟩ := hcve
    have hpy : probeYields w cv arch := ⟨hgcv, hne1, hne2⟩
    refine Or.inr ⟨cv, arch, hpy, ?_⟩
    cases hglv : (get_latest_version w).2 with
    | error e =>
      have hm : (main w).2 = Except.error e := by
        simp [main, hgcv, hne1, hne2, hglv]
      exact Or.inl ⟨e, hm, rfl⟩
    | ok lvo =>
    cases lvo with
    | none =>
      have hm : (main w).2 = Except.ok 3 := by
        simp [main, hgcv, hne1, hne2, hglv]
      exact Or.inr (Or.inl ⟨hm, Or.inl hglv⟩)
    | some lv =>
    by_cases hlv : lv = ""
    · subst hlv
      have hm : (main w).2 = Except.ok 3 := by
        simp [main, hgcv, hne1, hne2, hglv]
      exact Or.inr (Or.inl ⟨hm, Or.inr hglv⟩)
    · have hly : latestYields w lv := ⟨hglv, hlv⟩
      refine Or.inr (Or.inr ⟨lv, hly, ?_⟩)
      cases hcmp : compare_version cv lv with
      | error e =>
        have hm : (main w).2 = Except.error e := by
          simp [main, hgcv, hne1, hne2, hglv, hlv, hcmp]
        exact Or.inl ⟨e, hm, rfl⟩
      | ok r =>
      by_cases hr : r < 0
      · refine Or.inr (Or.inr ⟨r, rfl, hr, ?_⟩)
        cases hgi : (get_installer (get_latest_version w).1 arch).2 with
        | error e =>
          have hm : (main w).2 = Except.error e := by
            simp [main, hgcv, hne1, hne2, hglv, hlv, hcmp, hr, hgi]
          exact Or.inl ⟨e, hm, rfl⟩
        | ok po =>
        cases po with
        | none =>
          have hm : (main w).2 = Except.ok 4 := by
            simp [main, hgcv, hne1, hne2, hglv, hlv, hcmp, hr, hgi]
          exact Or.inr (Or.inl ⟨hm, Or.inl hgi⟩)
        | some p =>
        by_cases hp : p = ""
        · subst hp
          have hm : (main w).2 = Except.ok 4 := by
            simp [main, hgcv, hne1, hne2, hglv, hlv, hcmp, hr, hgi]
          exact Or.inr (Or.inl ⟨hm, Or.inr hgi⟩)
        · have hiy : installerYields w arch p := ⟨hgi, hp⟩
          refine Or.inr (Or.inr ⟨p, hiy, ?_⟩)
          cases hrun : (run_installer (get_installer (get_latest_version w).1 arch).1 p).2 with
          | true =>
            have hm : (main w).2 = Except.ok 1 := by
              simp [main, hgcv, hne1, hne2, hglv, hlv, hcmp, hr, hgi, hp, hrun]
            exact Or.inl ⟨hm, rfl⟩
          | false =>
            have hm : (main w).2 = Except.ok 5 := by
              simp [main, hgcv, hne1, hne2, hglv, hlv, hcmp, hr, hgi, hp, hrun]
            exact Or.inr ⟨hm, rfl⟩
      · have hm : (main w).2 = Except.ok 0 := by
          simp [main, hgcv, hne1, hne2, hglv, hlv, hcmp, hr]
        exact Or.inr (Or.inl ⟨hm, ⟨r, rfl, Int.not_lt.1 hr⟩⟩)

theorem not_mem_removeIfExists (files : List String) (p : String) :
    p ∉ removeIfExists files p := by
  unfold removeIfExists
  by_cases h : p ∈ files
  · rw [if_pos h]
    intro hmem
    have := (List.mem_filter.1 hmem).2
    simp at this
  · rw [if_neg h]
    exact h

/- ### Pipeline rewriting lemmas -/

theorem main_eq_up_to_date (w : World) (cv arch lv : String) (r : Int)
    (hp : probeYields w cv arch) (hl : latestYields w lv)
    (hc : compare_version cv lv = Except.ok r) (hr : ¬ r < 0) :
    main w = ((get_latest_version w).1, Except.ok 0) := by
  obtain ⟨hp1, hp2, hp3⟩ := hp
  obtain ⟨hl1, hl2⟩ := hl
  simp [main, hp1, hp2, hp3, hl1, hl2, hc, hr]

theorem main_download_error (w : World) (cv arch lv : String) (r : Int) (e : Exn)
    (hp : probeYields w cv arch) (hl : latestYields w lv)
    (hc : compare_version cv lv = Except.ok r) (hr : r < 0)
    (hgi : (get_installer (get_latest_version w).1 arch).2 = Except.error e) :
    main w = ((get_installer (get_latest_version w).1 arch).1, Except.error e) := by
  obtain ⟨hp1, hp2, hp3⟩ := hp
  obtain ⟨hl1, hl2⟩ := hl
  simp [main, hp1, hp2, hp3, hl1, hl2, hc, hr, hgi]

theorem main_download_fail (w : World) (cv arch lv : String) (r : Int)
    (hp : probeYields w cv arch) (hl : latestYields w lv)
    (hc : compare_version cv lv = Except.ok r) (hr : r < 0)
    (hgi : (get_installer (get_latest_version w).1 arch).2 = Except.ok none) :
    main w = ((get_installer (get_latest_version w).1 arch).1, Except.ok 4) := by
  obtain ⟨hp1, hp2, hp3⟩ := hp
  obtain ⟨hl1, hl2⟩ := hl
  simp [main, hp1, hp2, hp3, hl1, hl2, hc, hr, hgi]

theorem main_download_fail_empty (w : World) (cv arch lv : String) (r : Int)
    (hp : probeYields w cv arch) (hl : latestYields w lv)
    (hc : compare_version cv lv = Except.ok r) (hr : r < 0)
    (hgi : (get_installer (get_latest_version w).1 arch).2 = Except.ok (some "")) :
    main w = ((get_installer (get_latest_version w).1 arch).1, Except.ok 4) := by
  obtain ⟨hp1, hp2, hp3⟩ := hp
  obtain ⟨hl1, hl2⟩ := hl
  simp [main, hp1, hp2, hp3, hl1, hl2, hc, hr, hgi]

theorem main_install_stage (w : World) (cv arch lv p : String) (r : Int)
    (hp : probeYields w cv arch) (hl : latestYields w lv)
    (hc : compare_version cv lv = Except.ok r) (hr : r < 0)
    (hgi : (get_installer (get_latest_version w).1 arch).2 = Except.ok (some p))
    (hpe : p ≠ "") :
    main w =
      ((run_installer (get_installer (get_latest_version w).1 arch).1 p).1,
       Except.ok
         (if (run_installer (get_installer (get_latest_version w).1 arch).1 p).2
          then 1 else 5)) := by
  obtain ⟨hp1, hp2, hp3⟩ := hp
  obtain ⟨hl1, hl2⟩ := hl
  simp [main, hp1, hp2, hp3, hl1, hl2, hc, hr, hgi, hpe]

theorem countFeed_cons_feed (es : List Event) :
    countFeed (Event.feedRequest :: es) = countFeed es + 1 := by
  simp [countFeed, isFeedReq, List.filter]

theorem countFeed_cons_install (p : String) (es : List Event) :
    countFeed (Event.installRun p :: es) = countFeed es := by
  simp [countFeed, isFeedReq, List.filter]

theorem main_error_cases (w : World) (e : Exn) (h : (main w).2 = Except.error e) :
    (∃ a, w.feedResp w.feedCount = FeedResult.ok none a)
  ∨ (∃ cv arch lv, probeYields w cv arch ∧ latestYields w lv ∧
       (parseVersion cv = none ∨ parseVersion lv = none))
  ∨ (∃ t, w.feedResp (w.feedCount + 1) = FeedResult.ok t none) := by
  rcases main_cases w with ⟨hm, -⟩ | ⟨cv, arch, hp, hcase⟩
  · rw [hm] at h; simp at h
  · rcases hcase with ⟨e', hm, hglv⟩ | ⟨hm, -⟩ | ⟨lv, hl, hcase⟩
    · obtain ⟨a, ha⟩ := get_latest_version_error w e' hglv
      exact Or.inl ⟨a, ha⟩
    · rw [hm] at h; simp at h
    · rcases hcase with ⟨e', hm, hcmp⟩ | ⟨hm, -⟩ | ⟨r, hc, hr, hcase⟩
      · exact Or.inr (Or.inl ⟨cv, arch, lv, hp, hl, compare_version_error cv lv e' hcmp⟩)
      · rw [hm] at h; simp at h
      · rcases hcase with ⟨e', hm, hgi⟩ | ⟨hm, -⟩ | ⟨p, hiy, hcase⟩
        · obtain ⟨t, ht⟩ := get_installer_error _ arch e' hgi
          rw [get_latest_version_world w] at ht
          exact Or.inr (Or.inr ⟨t, ht⟩)
        · rw [hm] at h; simp at h
        · rcases hcase with ⟨hm, -⟩ | ⟨hm, -⟩ <;> rw [hm] at h <;> simp at h

/- ### Claim theorems -/

/-- C1: for every run of `main`, a completed run (one that returns an
exit code rather than raising) exits with exactly the documented code for
its outcome: 0 already up to date, 1 update installed, 2 not installed,
3 latest version not retrieved, 4 installer download failed (including no
matching asset), 5 installation failed; no other code is returned. -/
theorem main_exit_code_contract (w : World) :
    (∃ e, (main w).2 = Except.error e)
  ∨ ((main w).2 = Except.ok 2 ∧ ∀ cv arch, ¬ probeYields w cv arch)
  ∨ (∃ cv arch, probeYields w cv arch ∧
      (((main w).2 = Except.ok 3 ∧ latestFailed w)
     ∨ (∃ lv, latestYields w lv ∧
         (((main w).2 = Except.ok 0 ∧ ∃ r, compare_version cv lv = Except.ok r ∧ 0 ≤ r)
        ∨ (∃ r, compare_version cv lv = Except.ok r ∧ r < 0 ∧
            (((main w).2 = Except.ok 4 ∧ installerFailed w arch)
           ∨ (∃ p, installerYields w arch p ∧
               (((main w).2 = Except.ok 1 ∧
                   (run_installer (get_installer (get_latest_version w).1 arch).1 p).2 = true)
              ∨ ((main w).2 = Except.ok 5 ∧
                   (run_installer (get_installer (get_latest_version w).1 arch).1 p).2
                     = false))))))))) := by
  rcases main_cases w with h | ⟨cv, arch, hp, h⟩
  · exact Or.inr (Or.inl h)
  · rcases h with ⟨e, hm, -⟩ | h | ⟨lv, hl, h⟩
    · exact Or.inl ⟨e, hm⟩
    · exact Or.inr (Or.inr ⟨cv, arch, hp, Or.inl h⟩)
    · rcases h with ⟨e, hm, -⟩ | h | ⟨r, hc, hr, h⟩
      · exact Or.inl ⟨e, hm⟩
      · exact Or.inr (Or.inr ⟨cv, arch, hp, Or.inr ⟨lv, hl, Or.inl h⟩⟩)
      · rcases h with ⟨e, hm, -⟩ | h | ⟨p, hiy, h⟩
        · exact Or.inl ⟨e, hm⟩
        · exact Or.inr (Or.inr ⟨cv, arch, hp, Or.inr ⟨lv, hl, Or.inr ⟨r, hc, hr, Or.inl h⟩⟩⟩)
        · exact Or.inr (Or.inr ⟨cv, arch, hp,
            Or.inr ⟨lv, hl, Or.inr ⟨r, hc, hr, Or.inr ⟨p, hiy, h⟩⟩⟩⟩)

/-- C2 (counterexample): Notepad++ installed, feed reachable, but the
feed response lacks the `tag_name` field: the `KeyError` raised inside
`get_latest_version` is not caught anywhere and `main` does not return an
exit code. -/
theorem main_uncaught_keyError_cex :
    (main wKeyErr).2 = Except.error Exn.keyError
  ∧ ∀ c : Int, (main wKeyErr).2 ≠ Except.ok c := by
  have h2 : (main wKeyErr).2 = Except.error Exn.keyError := rfl
  refine ⟨h2, fun c h => ?_⟩
  rw [h2] at h
  exact Except.noConfusion h

/-- C2 (amended): transport failures and JSON-decode failures at every
stage are caught and mapped to exit codes, but only under the extra
assumptions that every JSON feed response carries its `tag_name` and
`assets` fields and that the version strings reaching `compare_version`
parse; a response missing a field raises an uncaught `KeyError`, and an
unparsable version string raises an uncaught `InvalidVersion`. -/
theorem main_no_exception_of_wellformed (w : World)
    (hfeed : ∀ n t a, w.feedResp n = FeedResult.ok t a → t ≠ none ∧ a ≠ none)
    (hver1 : ∀ cv arch, probeYields w cv arch → (parseVersion cv).isSome)
    (hver2 : ∀ lv, (get_latest_version w).2 = Except.ok (some lv) →
        (parseVersion lv).isSome) :
    ∃ c, (main w).2 = Except.ok c := by
  cases hm : (main w).2 with
  | ok c => exact ⟨c, rfl⟩
  | error e =>
    exfalso
    rcases main_error_cases w e hm with ⟨a, ha⟩ | ⟨cv, arch, lv, hp, hl, hbad⟩ | ⟨t, ht⟩
    · exact (hfeed _ _ _ ha).1 rfl
    · rcases hbad with hb | hb
      · have hs := hver1 cv arch hp
        rw [hb] at hs
        simp at hs
      · have hs := hver2 lv hl.1
        rw [hb] at hs
        simp at hs
    · exact (hfeed _ _ _ ht).2 rfl

/-- Witness for the amended C2: on the full successful pipeline all
hypotheses hold and `main` indeed returns a code. -/
theorem main_no_exception_witness :
    (∀ n t a, wFull.feedResp n = FeedResult.ok t a → t ≠ none ∧ a ≠ none)
  ∧ ∃ c, (main wFull).2 = Except.ok c := by
  have hfeed : ∀ n t a, wFull.feedResp n = FeedResult.ok t a → t ≠ none ∧ a ≠ none := by
    intro n t a h
    have h' : FeedResult.ok (some "v8.6.3") (some fullAssets) = FeedResult.ok t a := h
    obtain ⟨h1, h2⟩ := FeedResult.ok.inj h'
    subst h1; subst h2
    exact ⟨by simp, by simp⟩
  refine ⟨hfeed, main_no_exception_of_wellformed wFull hfeed ?_ ?_⟩
  · intro cv arch hp
    have h1 : (some "4.5.1", some "x64") = (some cv, some arch) := hp.1
    simp only [Prod.mk.injEq, Option.some.injEq] at h1
    obtain ⟨h2, -⟩ := h1
    subst h2
    decide
  · intro lv hl
    have h1 : (Except.ok (some "8.6.3") : Except Exn (Option String))
        = Except.ok (some lv) := hl
    simp only [Except.ok.injEq, Option.some.injEq] at h1
    subst h1
    decide

/-- C7: when the installed-version probe yields not-installed, the run
terminates with exit code 2 and the world is untouched: no network request
of any kind is issued. -/
theorem not_installed_exits2_no_network (w : World)
    (h : get_current_version w.registry = (none, none)) :
    main w = (w, Except.ok 2) ∧ (main w).1.events = w.events
  ∧ (main w).1.feedCount = w.feedCount := by
  have hm : main w = (w, Except.ok 2) := by simp [main, h]
  exact ⟨hm, by rw [hm], by rw [hm]⟩

/-- Witness for C7 at the empty registry. -/
theorem not_installed_witness :
    get_current_version wEmpty.registry = (none, none)
  ∧ main wEmpty = (wEmpty, Except.ok 2)
  ∧ (main wEmpty).1.events = wEmpty.events := by
  refine ⟨rfl, ?_, ?_⟩
  · exact (not_installed_exits2_no_network wEmpty rfl).1
  · exact (not_installed_exits2_no_network wEmpty rfl).2.1

/-- C4: when the comparison is not LESS (equal, or greater — treated as
up to date, not an error), the run exits 0 and the only effect of the whole
run is the single latest-version feed request: the selector, downloader and
installer are never invoked. -/
theorem up_to_date_skips_download (w : World) (cv arch lv : String) (r : Int)
    (hp : probeYields w cv arch) (hl : latestYields w lv)
    (hc : compare_version cv lv = Except.ok r) (hr : 0 ≤ r) :
    (main w).2 = Except.ok 0
  ∧ (main w).1.events = Event.feedRequest :: w.events := by
  have hm := main_eq_up_to_date w cv arch lv r hp hl hc (Int.not_lt.2 hr)
  constructor
  · rw [hm]
  · rw [hm, get_latest_version_world w]

/-- Witness for C4: current 8.6, latest 8.6. -/
theorem up_to_date_witness :
    probeYields wSame "8.6" "x86" ∧ latestYields wSame "8.6"
  ∧ compare_version "8.6" "8.6" = Except.ok 0
  ∧ (main wSame).2 = Except.ok 0
  ∧ (main wSame).1.events = [Event.feedRequest] := by
  have hp : probeYields wSame "8.6" "x86" := ⟨rfl, by decide, by decide⟩
  have hl : latestYields wSame "8.6" := ⟨rfl, by decide⟩
  have hc : compare_version "8.6" "8.6" = Except.ok 0 := rfl
  have h := up_to_date_skips_download wSame "8.6" "x86" "8.6" 0 hp hl hc (by decide)
  exact ⟨hp, hl, hc, h.1, h.2⟩

theorem find?_congr {α : Type} (p q : α → Bool) (h : ∀ a, p a = q a) :
    ∀ l : List α, l.find? p = l.find? q := by
  intro l
  induction l with
  | nil => rfl
  | cons x xs ih =>
    cases hq : q x with
    | true => simp [List.find?, h x, hq]
    | false => simp [List.find?, h x, hq, ih]

theorem installerMatch_x64 (a : Asset) :
    installerMatch "x64" a = endswith a.name "x64.exe" := by
  have h1 : ("x64" ++ ".exe" : String) = "x64.exe" := rfl
  have h2 : (("x64" : String) == "x64") = true := rfl
  have h3 : (("x64" : String) == "x86") = false := rfl
  simp [installerMatch, h1, h2, h3]

theorem installerMatch_x86 (a : Asset) :
    installerMatch "x86" a = endswith a.name "Installer.exe" := by
  have h2 : (("x86" : String) == "x64") = false := rfl
  have h3 : (("x86" : String) == "x86") = true := rfl
  simp [installerMatch, h2, h3]

/-- C5: selection is order-sensitive with first match winning — for x64
the first asset whose name ends in `"x64.exe"`, for x86 the first asset
whose name ends in `"Installer.exe"`; no match is an ordinary `none` (not
an exception), which the orchestrator maps to the download-failure code 4. -/
theorem selector_first_match (assets : List Asset) (w : World)
    (cv arch lv : String) (r : Int) :
    selectUrl assets "x64"
      = ((assets.find? (fun a => endswith a.name "x64.exe")).map
           Asset.browser_download_url)
  ∧ selectUrl assets "x86"
      = ((assets.find? (fun a => endswith a.name "Installer.exe")).map
           Asset.browser_download_url)
  ∧ (probeYields w cv arch → latestYields w lv →
      compare_version cv lv = Except.ok r → r < 0 →
      (get_installer (get_latest_version w).1 arch).2 = Except.ok none →
      (main w).2 = Except.ok 4) := by
  refine ⟨?_, ?_, ?_⟩
  · unfold selectUrl
    rw [find?_congr _ _ installerMatch_x64]
  · unfold selectUrl
    rw [find?_congr _ _ installerMatch_x86]
  · intro hp hl hc hr hgi
    rw [main_download_fail w cv arch lv r hp hl hc hr hgi]

/-- Witness for C5: the release only publishes an unrelated file, so x64
selection fails and the run exits 4. -/
theorem selector_first_match_witness :
    selectUrl fullAssets "x64"
      = ((fullAssets.find? (fun a => endswith a.name "x64.exe")).map
           Asset.browser_download_url)
  ∧ probeYields wNoMatch "4.5.1" "x64"
  ∧ latestYields wNoMatch "8.6.3"
  ∧ compare_version "4.5.1" "8.6.3" = Except.ok (-1)
  ∧ (get_installer (get_latest_version wNoMatch).1 "x64").2 = Except.ok none
  ∧ (main wNoMatch).2 = Except.ok 4 := by
  have h := selector_first_match fullAssets wNoMatch "4.5.1" "x64" "8.6.3" (-1)
  have hp : probeYields wNoMatch "4.5.1" "x64" := ⟨rfl, by decide, by decide⟩
  have hl : latestYields wNoMatch "8.6.3" := ⟨rfl, by decide⟩
  have hc : compare_version "4.5.1" "8.6.3" = Except.ok (-1) := rfl
  have hgi : (get_installer (get_latest_version wNoMatch).1 "x64").2 = Except.ok none := rfl
  exact ⟨h.1, hp, hl, hc, hgi, h.2.2 hp hl hc (by decide) hgi⟩

/-- C6: whatever path is handed to the installer runner and whatever the
installer process does (success, non-zero exit, or launch failure), the file
at that path does not exist after `run_installer` returns; the run then
exits 1 exactly when installation succeeded and 5 otherwise. -/
theorem installer_cleanup (w : World) (cv arch lv p : String) (r : Int)
    (hp : probeYields w cv arch) (hl : latestYields w lv)
    (hc : compare_version cv lv = Except.ok r) (hr : r < 0)
    (hi : installerYields w arch p) :
    (∀ w' q, q ∉ (run_installer w' q).1.files)
  ∧ p ∉ (main w).1.files
  ∧ ((main w).2 = Except.ok 1 ∨ (main w).2 = Except.ok 5)
  ∧ ((main w).2 = Except.ok 1 ↔
       (run_installer (get_installer (get_latest_version w).1 arch).1 p).2 = true) := by
  have hclean : ∀ w' q, q ∉ (run_installer w' q).1.files := by
    intro w' q
    rw [run_installer_world]
    exact not_mem_removeIfExists w'.files q
  obtain ⟨hgi, hpne⟩ := hi
  have hm := main_install_stage w cv arch lv p r hp hl hc hr hgi hpne
  refine ⟨hclean, ?_, ?_, ?_⟩
  · rw [hm]
    exact hclean _ p
  · rw [hm]
    cases hrb : (run_installer (get_installer (get_latest_version w).1 arch).1 p).2
    · exact Or.inr (by simp [hrb])
    · exact Or.inl (by simp [hrb])
  · rw [hm]
    cases hrb : (run_installer (get_installer (get_latest_version w).1 arch).1 p).2 <;>
      simp [hrb]

/-- Witness for C6 on the successful pipeline: the artifact is gone and the
exit code is 1. -/
theorem installer_cleanup_witness :
    probeYields wFull "4.5.1" "x64"
  ∧ latestYields wFull "8.6.3"
  ∧ compare_version "4.5.1" "8.6.3" = Except.ok (-1)
  ∧ installerYields wFull "x64" "npp_installer_x64.exe"
  ∧ "npp_installer_x64.exe" ∉ (main wFull).1.files
  ∧ (main wFull).2 = Except.ok 1 := by
  have hp : probeYields wFull "4.5.1" "x64" := ⟨rfl, by decide, by decide⟩
  have hl : latestYields wFull "8.6.3" := ⟨rfl, by decide⟩
  have hc : compare_version "4.5.1" "8.6.3" = Except.ok (-1) := rfl
  have hi : installerYields wFull "x64" "npp_installer_x64.exe" := ⟨rfl, by decide⟩
  have h := installer_cleanup wFull "4.5.1" "x64" "8.6.3" "npp_installer_x64.exe" (-1)
    hp hl hc (by decide) hi
  exact ⟨hp, hl, hc, hi, h.2.1, h.2.2.2.mpr rfl⟩

/-- C9: every run that reaches the download stage requests the release
feed twice — once in `get_latest_version` (the response whose tag, with the
leading `v` stripped, was compared) and once more in `get_installer`, which
reads the asset list from this second, independent response (index
`feedCount + 1`), not from the response whose tag was compared. -/
theorem download_stage_two_fetches (w : World) (cv arch lv : String) (r : Int)
    (hp : probeYields w cv arch) (hl : latestYields w lv)
    (hc : compare_version cv lv = Except.ok r) (hr : r < 0) :
    (main w).1.feedCount = w.feedCount + 2
  ∧ countFeed (main w).1.events = countFeed w.events + 2
  ∧ (∃ t a, w.feedResp w.feedCount = FeedResult.ok (some t) a ∧ lv = lstripV t)
  ∧ (∀ t assets, w.feedResp (w.feedCount + 1) = FeedResult.ok t (some assets) →
       selectUrl assets arch = none → (main w).2 = Except.ok 4) := by
  have hXfc : (get_latest_version w).1.feedCount = w.feedCount + 1 := by
    rw [get_latest_version_world w]
  have hXev : (get_latest_version w).1.events = Event.feedRequest :: w.events := by
    rw [get_latest_version_world w]
  have hgifc : (get_installer (get_latest_version w).1 arch).1.feedCount
      = w.feedCount + 2 := by
    rw [get_installer_feedCount, hXfc]
  have hgicf : countFeed (get_installer (get_latest_version w).1 arch).1.events
      = countFeed w.events + 2 := by
    rw [get_installer_countFeed, hXev, countFeed_cons_feed]
  have hab : (main w).1.feedCount = w.feedCount + 2
      ∧ countFeed (main w).1.events = countFeed w.events + 2 := by
    cases hgi : (get_installer (get_latest_version w).1 arch).2 with
    | error e =>
      have hm := main_download_error w cv arch lv r e hp hl hc hr hgi
      rw [hm]
      exact ⟨hgifc, hgicf⟩
    | ok po =>
      cases po with
      | none =>
        have hm := main_download_fail w cv arch lv r hp hl hc hr hgi
        rw [hm]
        exact ⟨hgifc, hgicf⟩
      | some p =>
        by_cases hpe : p = ""
        · subst hpe
          have hm := main_download_fail_empty w cv arch lv r hp hl hc hr hgi
          rw [hm]
          exact ⟨hgifc, hgicf⟩
        · have hm := main_install_stage w cv arch lv p r hp hl hc hr hgi hpe
          rw [hm]
          constructor
          · rw [run_installer_world]
            exact hgifc
          · rw [run_installer_world]
            show countFeed (Event.installRun p ::
              (get_installer (get_latest_version w).1 arch).1.events)
                = countFeed w.events + 2
            rw [countFeed_cons_install]
            exact hgicf
  have htag : ∃ t a, w.feedResp w.feedCount = FeedResult.ok (some t) a
      ∧ lv = lstripV t := get_latest_version_ok_some w lv hl.1
  refine ⟨hab.1, hab.2, htag, ?_⟩
  intro t assets hresp hsel
  have hX : (get_latest_version w).1.feedResp ((get_latest_version w).1.feedCount)
      = FeedResult.ok t (some assets) := by
    rw [get_latest_version_world w]
    exact hresp
  have hgi : (get_installer (get_latest_version w).1 arch).2 = Except.ok none := by
    simp [get_installer, hX, hsel]
  rw [main_download_fail w cv arch lv r hp hl hc hr hgi]

/-- Witness for C9 on the successful pipeline. -/
theorem download_stage_two_fetches_witness :
    probeYields wFull "4.5.1" "x64"
  ∧ latestYields wFull "8.6.3"
  ∧ compare_version "4.5.1" "8.6.3" = Except.ok (-1)
  ∧ (main wFull).1.feedCount = wFull.feedCount + 2
  ∧ countFeed (main wFull).1.events = countFeed wFull.events + 2 := by
  have hp : probeYields wFull "4.5.1" "x64" := ⟨rfl, by decide, by decide⟩
  have hl : latestYields wFull "8.6.3" := ⟨rfl, by decide⟩
  have hc : compare_version "4.5.1" "8.6.3" = Except.ok (-1) := rfl
  have h := download_stage_two_fetches wFull "4.5.1" "x64" "8.6.3" (-1)
    hp hl hc (by decide)
  exact ⟨hp, hl, hc, h.1, h.2.1⟩

theorem ordToInt_swap (o : Ordering) : ordToInt o.swap = -(ordToInt o) := by
  cases o <;> rfl

theorem ordToInt_eq_neg_one (o : Ordering) : ordToInt o = -1 ↔ o = Ordering.lt := by
  cases o <;> simp [ordToInt]

/-- C3: on valid dotted-numeric version strings `compare_version` is the
strict total order given by component-wise numeric comparison after
zero-padding the shorter sequence (`padCmp`): it is reflexive-equal,
antisymmetric (negation under swap), total with values in {-1,0,1},
transitive, and agrees with the four quoted examples. -/
theorem compare_version_total_order (a b : String) (va vb : List Nat)
    (ha : parseVersion a = some va) (hb : parseVersion b = some vb) :
    compare_version a b = Except.ok (ordToInt (padCmp va vb))
  ∧ compare_version a a = Except.ok 0
  ∧ (∀ k, compare_version a b = Except.ok k → compare_version b a = Except.ok (-k))
  ∧ (∃ k, compare_version a b = Except.ok k ∧ (k = -1 ∨ k = 0 ∨ k = 1))
  ∧ (∀ c vc, parseVersion c = some vc →
       compare_version a b = Except.ok (-1) → compare_version b c = Except.ok (-1) →
       compare_version a c = Except.ok (-1))
  ∧ compare_version "7.1.2" "8.6" = Except.ok (-1)
  ∧ compare_version "8.9.4" "8.5" = Except.ok 1
  ∧ compare_version "8.6.4" "8.6.4" = Except.ok 0
  ∧ compare_version "8.6" "8.6.0" = Except.ok 0 := by
  have hab : compare_version a b
      = Except.ok (ordToInt (tupleCmp (dropTrailingZeros va) (dropTrailingZeros vb))) := by
    simp [compare_version, ha, hb]
  have hba : compare_version b a
      = Except.ok (ordToInt (tupleCmp (dropTrailingZeros vb) (dropTrailingZeros va))) := by
    simp [compare_version, ha, hb]
  refine ⟨?_, ?_, ?_, ?_, ?_, rfl, rfl, rfl, rfl⟩
  · rw [hab, dtz_tupleCmp_eq_cmpZ, ← padCmp_eq_cmpZ]
  · simp [compare_version, ha, tupleCmp_refl, ordToInt]
  · intro k hk
    rw [hab] at hk
    have hk' := Except.ok.inj hk
    rw [hba, tupleCmp_swap, ordToInt_swap, hk']
  · refine ⟨_, hab, ?_⟩
    cases tupleCmp (dropTrailingZeros va) (dropTrailingZeros vb) <;> simp [ordToInt]
  · intro c vc hcv h1 h2
    rw [hab] at h1
    have ht1 : tupleCmp (dropTrailingZeros va) (dropTrailingZeros vb) = Ordering.lt :=
      (ordToInt_eq_neg_one _).1 (Except.ok.inj h1)
    have hbc : compare_version b c
        = Except.ok (ordToInt (tupleCmp (dropTrailingZeros vb) (dropTrailingZeros vc))) := by
      simp [compare_version, hb, hcv]
    rw [hbc] at h2
    have ht2 : tupleCmp (dropTrailingZeros vb) (dropTrailingZeros vc) = Ordering.lt :=
      (ordToInt_eq_neg_one _).1 (Except.ok.inj h2)
    have ht3 := tupleCmp_lt_trans ht1 ht2
    simp [compare_version, ha, hcv, ht3, ordToInt]

/-- Witness for C3 at the pair `("7.1.2", "8.6")`. -/
theorem compare_version_total_order_witness :
    parseVersion "7.1.2" = some [7, 1, 2]
  ∧ parseVersion "8.6" = some [8, 6]
  ∧ compare_version "7.1.2" "8.6" = Except.ok (ordToInt (padCmp [7, 1, 2] [8, 6]))
  ∧ compare_version "7.1.2" "7.1.2" = Except.ok 0 := by
  have h := compare_version_total_order "7.1.2" "8.6" [7, 1, 2] [8, 6] rfl rfl
  exact ⟨rfl, rfl, h.1, h.2.1⟩

/-- C8 (counterexample): the second registered path yields both a
display name and a display version, yet the probe reports not-installed,
because the first path already yielded a display name and its missing
display version is not retried on the later path. -/
theorem probe_stops_at_first_name_cex :
    nameAt c8reg reg_path_plain = some "Notepad++ (x64)"
  ∧ versionAt c8reg reg_path_plain = some "8.6"
  ∧ reg_path_plain ∈ npp_reg_paths
  ∧ nameAt c8reg reg_path_wow = some "Notepad++"
  ∧ versionAt c8reg reg_path_wow = none
  ∧ get_current_version c8reg = (none, none) := by
  refine ⟨rfl, rfl, by decide, rfl, rfl, rfl⟩

/-- C8 (amended): the probe tries the known registration paths in order
until one yields a display name; the display version is then read from that
same path only, and the architecture is derived from the `"x64"` marker in
that display name.  `NotInstalled` results when no path yields a display
name, or when the chosen path lacks a display version — later paths are not
retried in that case. -/
theorem probe_first_name_path (reg : String → Option RegKey) :
    ((nameAt reg reg_path_wow = none ∧ nameAt reg reg_path_plain = none) →
        get_current_version reg = (none, none))
  ∧ (∀ dn, nameAt reg reg_path_wow = some dn →
        get_current_version reg =
          (match versionAt reg reg_path_wow with
           | some v => (some v, some (if pyIn "x64" dn then "x64" else "x86"))
           | none => (none, none)))
  ∧ (∀ dn, nameAt reg reg_path_wow = none → nameAt reg reg_path_plain = some dn →
        get_current_version reg =
          (match versionAt reg reg_path_plain with
           | some v => (some v, some (if pyIn "x64" dn then "x64" else "x86"))
           | none => (none, none))) := by
  refine ⟨?_, ?_, ?_⟩
  · rintro ⟨h1, h2⟩
    cases hw : reg reg_path_wow with
    | none =>
      cases hp : reg reg_path_plain with
      | none => simp [get_current_version, get_arch, get_arch_go, npp_reg_paths, hw, hp]
      | some k =>
        simp only [nameAt, hp, Option.some_bind] at h2
        simp [get_current_version, get_arch, get_arch_go, npp_reg_paths, hw, hp, h2]
    | some k =>
      simp only [nameAt, hw, Option.some_bind] at h1
      cases hp : reg reg_path_plain with
      | none => simp [get_current_version, get_arch, get_arch_go, npp_reg_paths, hw, hp, h1]
      | some k2 =>
        simp only [nameAt, hp, Option.some_bind] at h2
        simp [get_current_version, get_arch, get_arch_go, npp_reg_paths, hw, hp, h1, h2]
  · intro dn h
    cases hw : reg reg_path_wow with
    | none => simp [nameAt, hw] at h
    | some k =>
      simp only [nameAt, hw, Option.some_bind] at h
      cases hv : k.displayVersion with
      | none =>
        simp [get_current_version, get_arch, get_arch_go, npp_reg_paths, versionAt,
          hw, h, hv]
      | some v =>
        simp [get_current_version, get_arch, get_arch_go, npp_reg_paths, versionAt,
          hw, h, hv]
  · intro dn h1 h2
    cases hw : reg reg_path_wow with
    | none =>
      cases hp : reg reg_path_plain with
      | none => simp [nameAt, hp] at h2
      | some k =>
        simp only [nameAt, hp, Option.some_bind] at h2
        cases hv : k.displayVersion with
        | none =>
          simp [get_current_version, get_arch, get_arch_go, npp_reg_paths, versionAt,
            hw, hp, h2, hv]
        | some v =>
          simp [get_current_version, get_arch, get_arch_go, npp_reg_paths, versionAt,
            hw, hp, h2, hv]
    | some k =>
      simp only [nameAt, hw, Option.some_bind] at h1
      cases hp : reg reg_path_plain with
      | none => simp [nameAt, hp] at h2
      | some k2 =>
        simp only [nameAt, hp, Option.some_bind] at h2
        cases hv : k2.displayVersion with
        | none =>
          simp [get_current_version, get_arch, get_arch_go, npp_reg_paths, versionAt,
            hw, hp, h1, h2, hv]
        | some v =>
          simp [get_current_version, get_arch, get_arch_go, npp_reg_paths, versionAt,
            hw, hp, h1, h2, hv]

/-- Witness for the amended C8 at the two-path registry. -/
theorem probe_first_name_path_witness :
    nameAt c8reg reg_path_wow = some "Notepad++"
  ∧ get_current_version c8reg = (none, none) := by
  refine ⟨rfl, ?_⟩
  have h := (probe_first_name_path c8reg).2.1 "Notepad++" rfl
  rw [h]
  rfl

/-- C10: whenever a registry path opens and yields a display name, an
architecture is always determined (never `none`): `"x64"` exactly when the
display name contains the substring `"x64"`, and `"x86"` for every other
display name. -/
theorem arch_always_determined (reg : String → Option RegKey) :
    (∀ dn, nameAt reg reg_path_wow = some dn →
        (get_arch reg).1 = some (if pyIn "x64" dn then "x64" else "x86")
      ∧ (get_arch reg).1 ≠ none
      ∧ ((get_arch reg).1 = some "x64" ↔ pyIn "x64" dn = true)
      ∧ ((get_arch reg).1 = some "x86" ↔ pyIn "x64" dn = false))
  ∧ (∀ dn, nameAt reg reg_path_wow = none → nameAt reg reg_path_plain = some dn →
        (get_arch reg).1 = some (if pyIn "x64" dn then "x64" else "x86")
      ∧ (get_arch reg).1 ≠ none
      ∧ ((get_arch reg).1 = some "x64" ↔ pyIn "x64" dn = true)
      ∧ ((get_arch reg).1 = some "x86" ↔ pyIn "x64" dn = false)) := by
  have hne : ("x64" : String) ≠ "x86" := by decide
  have hne2 : ("x86" : String) ≠ "x64" := by decide
  have key : ∀ dn, (get_arch reg).1 = some (if pyIn "x64" dn then "x64" else "x86") →
      (get_arch reg).1 ≠ none
    ∧ ((get_arch reg).1 = some "x64" ↔ pyIn "x64" dn = true)
    ∧ ((get_arch reg).1 = some "x86" ↔ pyIn "x64" dn = false) := by
    intro dn h
    cases hx : pyIn "x64" dn with
    | true =>
      simp only [hx, if_true] at h
      rw [h]
      exact ⟨by simp, by simp, by simp [hne]⟩
    | false =>
      simp only [hx, if_false] at h
      rw [h]
      exact ⟨by simp, by simp [hne2], by simp⟩
  constructor
  · intro dn hn
    cases hw : reg reg_path_wow with
    | none => simp [nameAt, hw] at hn
    | some k =>
      simp only [nameAt, hw, Option.some_bind] at hn
      have h : (get_arch reg).1 = some (if pyIn "x64" dn then "x64" else "x86") := by
        simp [get_arch, get_arch_go, npp_reg_paths, hw, hn]
      exact ⟨h, key dn h⟩
  · intro dn h0 hn
    cases hw : reg reg_path_wow with
    | none =>
      cases hp : reg reg_path_plain with
      | none => simp [nameAt, hp] at hn
      | some k =>
        simp only [nameAt, hp, Option.some_bind] at hn
        have h : (get_arch reg).1 = some (if pyIn "x64" dn then "x64" else "x86") := by
          simp [get_arch, get_arch_go, npp_reg_paths, hw, hp, hn]
        exact ⟨h, key dn h⟩
    | some k =>
      simp only [nameAt, hw, Option.some_bind] at h0
      cases hp : reg reg_path_plain with
      | none => simp [nameAt, hp] at hn
      | some k2 =>
        simp only [nameAt, hp, Option.some_bind] at hn
        have h : (get_arch reg).1 = some (if pyIn "x64" dn then "x64" else "x86") := by
          simp [get_arch, get_arch_go, npp_reg_paths, hw, hp, h0, hn]
        exact ⟨h, key dn h⟩

/-- Witness for C10 with the display name `"Notepad++ (x64)"`. -/
theorem arch_always_determined_witness :
    nameAt wFull.registry reg_path_wow = some "Notepad++ (x64)"
  ∧ (get_arch wFull.registry).1 = some "x64"
  ∧ ((get_arch wFull.registry).1 = some "x64"
       ↔ pyIn "x64" "Notepad++ (x64)" = true) := by
  have h := (arch_always_determined wFull.registry).1 "Notepad++ (x64)" rfl
  refine ⟨rfl, ?_, h.2.2.1⟩
  rw [h.1]
  rfl

end NppUpdate
